import Mathlib

/-!
Shallow embedding of the redlux AAC decoder library and verification of its
specification claims.

The embedding covers the two source files:
  * src/adts.rs — the ADTS header builder (get_bits, get_bits_u8,
    construct_adts_header);
  * src/lib.rs — the Decoder state machine (new_aac, new_mpeg4,
    decode_next_sample, the Iterator implementation).

External collaborators (the mp4 demuxer crate, the fdk-aac decoder, the
underlying io reader) are modelled at their interface boundary: enumerations
are copied from the mp4 crate, and the stateful collaborators are modelled as
deterministic oracles whose responses are given by scripts (lists of
responses consumed call by call), so that theorems quantifying over scripts
cover every possible collaborator behaviour.

Machine integers are modelled as Nat with explicit wrap-around (mod 256 for
u8 operations, mod 65536 for u16 operations) exactly where the Rust types
force truncation. A Rust panic (out-of-bounds index or slice) is modelled as
an explicit result constructor.
-/

/-- Audio object types of the external mp4 crate (mp4::AudioObjectType). -/
inductive AudioObjectType where
  | AacMain
  | AacLowComplexity
  | AacScalableSampleRate
  | AacLongTermPrediction
  | SpectralBandReplication
  | AACScalable
  | TwinVQ
  | CodeExcitedLinearPrediction
  | HarmonicVectorExcitationCoding
  | TextToSpeechInterface
  | MainSynthetic
  | WavetableSynthesis
  | GeneralMIDI
  | AlgorithmicSynthesis
  | ErrorResilientAacLowComplexity
  | ErrorResilientAacLongTermPrediction
  | ErrorResilientAacScalable
  | ErrorResilientAacTwinVQ
  | ErrorResilientAacBitSlicedArithmeticCoding
  | ErrorResilientAacLowDelay
  | ErrorResilientCodeExcitedLinearPrediction
  | ErrorResilientHarmonicVectorExcitationCoding
  | ErrorResilientHarmonicIndividualLinesNoise
  | ErrorResilientParametric
  | SinuSoidalCoding
  | ParametricStereo
  | MpegSurround
  | MpegLayer1
  | MpegLayer2
  | MpegLayer3
  | DirectStreamTransfer
  | AudioLosslessCoding
  | ScalableLosslessCoding
  | ScalableLosslessCodingNoneCore
  | ErrorResilientAacEnhancedLowDelay
  | SpatialAudioObjectCoding
  | LowDelayMpegSurround
  deriving DecidableEq

/-- Sample frequency indices of the external mp4 crate (mp4::SampleFreqIndex). -/
inductive SampleFreqIndex where
  | Freq96000
  | Freq88200
  | Freq64000
  | Freq48000
  | Freq44100
  | Freq32000
  | Freq24000
  | Freq22050
  | Freq16000
  | Freq12000
  | Freq11025
  | Freq8000
  | Freq7350
  deriving DecidableEq

/-- Channel configurations of the external mp4 crate (mp4::ChannelConfig). -/
inductive ChannelConfig where
  | Mono
  | Stereo
  | Three
  | Four
  | Five
  | FiveOne
  | SevenOne
  deriving DecidableEq

/-- Media types of the external mp4 crate (mp4::MediaType). -/
inductive MediaType where
  | H264
  | H265
  | VP9
  | AAC
  | TTXT
  deriving DecidableEq

/-- Error codes of the external fdk-aac decoder (fdk_aac::dec::DecoderError).
Only the two codes the library treats as recoverable are distinguished by
name in the source; a few further codes stand for the remaining variants. -/
inductive DecoderError where
  | NOT_ENOUGH_BITS
  | TRANSPORT_SYNC_ERROR
  | OUT_OF_MEMORY
  | UNKNOWN
  | INVALID_HANDLE
  | UNSUPPORTED_FORMAT
  | NEED_TO_RESTART
  deriving DecidableEq

/-- One mp4 sample (mp4::Mp4Sample): its elementary-stream payload bytes. -/
structure Mp4Sample where
  bytes : List Nat
  deriving DecidableEq

/-- Redlux error type (enum Error in src/lib.rs). The payload of ReaderError
models an opaque std::io::Error as a numeric code. -/
inductive Error where
  | FileHeaderError
  | TrackReadingError
  | UnsupportedObjectType (aot : AudioObjectType)
  | TrackNotFound
  | TrackDecodingError (e : DecoderError)
  | SamplesError
  | ReaderError (e : Nat)
  deriving DecidableEq

/-- Bit extraction on u16 (fn get_bits in src/adts.rs). The two range fields
of the Rust Range argument are passed as separate naturals. Shifts of a u16
discard bits above bit 15, modelled by reducing mod 65536. -/
def get_bits (byte : Nat) (rstart rend : Nat) : Nat :=
  let shaved_left := (byte <<< (rstart - 1)) % 65536
  let moved_back := shaved_left >>> (rstart - 1)
  let shave_right := moved_back >>> (16 - rend)
  shave_right

/-- Bit extraction on u8 (fn get_bits_u8 in src/adts.rs). -/
def get_bits_u8 (byte : Nat) (rstart rend : Nat) : Nat :=
  let shaved_left := (byte <<< (rstart - 1)) % 256
  let moved_back := shaved_left >>> (rstart - 1)
  let shave_right := moved_back >>> (8 - rend)
  shave_right

/-- Profile selection match of construct_adts_header: the three supported
object types are coerced to the low-complexity code 2, every other object
type takes the early-return arm with an UnsupportedObjectType error. -/
def audio_object_type_code (object_type : AudioObjectType) : Except Error Nat :=
  match object_type with
  | AudioObjectType.AacLowComplexity => Except.ok 2
  | AudioObjectType.SpectralBandReplication => Except.ok 2
  | AudioObjectType.ParametricStereo => Except.ok 2
  | aot => Except.error (Error.UnsupportedObjectType aot)

/-- Sample-frequency-index match of construct_adts_header (indices 0 to 12). -/
def sample_freq_index_code (sample_freq_index : SampleFreqIndex) : Nat :=
  match sample_freq_index with
  | SampleFreqIndex.Freq96000 => 0
  | SampleFreqIndex.Freq88200 => 1
  | SampleFreqIndex.Freq64000 => 2
  | SampleFreqIndex.Freq48000 => 3
  | SampleFreqIndex.Freq44100 => 4
  | SampleFreqIndex.Freq32000 => 5
  | SampleFreqIndex.Freq24000 => 6
  | SampleFreqIndex.Freq22050 => 7
  | SampleFreqIndex.Freq16000 => 8
  | SampleFreqIndex.Freq12000 => 9
  | SampleFreqIndex.Freq11025 => 10
  | SampleFreqIndex.Freq8000 => 11
  | SampleFreqIndex.Freq7350 => 12

/-- Channel-configuration match of construct_adts_header (values 1 to 7). -/
def channel_config_code (channel_config : ChannelConfig) : Nat :=
  match channel_config with
  | ChannelConfig.Mono => 1
  | ChannelConfig.Stereo => 2
  | ChannelConfig.Three => 3
  | ChannelConfig.Four => 4
  | ChannelConfig.Five => 5
  | ChannelConfig.FiveOne => 6
  | ChannelConfig.SevenOne => 7

/-- ADTS header builder (fn construct_adts_header in src/adts.rs). Bytes are
naturals below 256; u8 shifts wrap mod 256, the u16 frame length wraps mod
65536, and the casts of get_bits results to u8 reduce mod 256, exactly as in
the source. -/
def construct_adts_header (object_type : AudioObjectType)
    (sample_freq_index : SampleFreqIndex) (channel_config : ChannelConfig)
    (sample : Mp4Sample) : Except Error (List Nat) :=
  let adts_header_length : Nat := 7
  let byte0 : Nat := 0b11111111
  let byte1 : Nat := 0b11110001
  let byte2 : Nat := 0b00000000
  match audio_object_type_code object_type with
  | Except.error e => Except.error e
  | Except.ok object_type =>
    let adts_object_type := object_type - 1
    let byte2 := ((byte2 <<< 2) % 256) ||| adts_object_type
    let sample_freq_index := sample_freq_index_code sample_freq_index
    let byte2 := ((byte2 <<< 4) % 256) ||| sample_freq_index
    let byte2 := ((byte2 <<< 1) % 256) ||| 0b1
    let channel_config := channel_config_code channel_config
    let byte2 := ((byte2 <<< 1) % 256) ||| get_bits_u8 channel_config 6 6
    let byte3 : Nat := 0b00000000
    let byte3 := ((byte3 <<< 2) % 256) ||| get_bits_u8 channel_config 7 8
    let byte3 := ((byte3 <<< 4) % 256) ||| 0b1111
    let frame_length := (adts_header_length + sample.bytes.length % 65536) % 65536
    let byte3 := ((byte3 <<< 2) % 256) ||| (get_bits frame_length 3 5 % 256)
    let byte4 := get_bits frame_length 6 13 % 256
    let byte5 : Nat := 0b00000000
    let byte5 := ((byte5 <<< 3) % 256) ||| (get_bits frame_length 14 16 % 256)
    let byte5 := ((byte5 <<< 5) % 256) ||| 0b11111
    let byte6 : Nat := 0b00000000
    let byte6 := ((byte6 <<< 6) % 256) ||| 0b111111
    let byte6 := ((byte6 <<< 2) % 256) ||| 0b00
    Except.ok [byte0, byte1, byte2, byte3, byte4, byte5, byte6]

/-! Field extraction helpers for stating properties of a produced 7-byte
header. Bit positions follow the ADTS layout named in the specification. -/

/-- Twelve-bit sync word: byte 0 and the top nibble of byte 1. -/
def adts_sync_word (h : List Nat) : Nat := (h.getD 0 0) <<< 4 ||| ((h.getD 1 0) >>> 4)

/-- Protection-absent flag: lowest bit of byte 1. -/
def adts_protection_absent (h : List Nat) : Nat := (h.getD 1 0) % 2

/-- Two-bit profile field: top two bits of byte 2. -/
def adts_profile_field (h : List Nat) : Nat := (h.getD 2 0) >>> 6

/-- Private bit: bit 1 of byte 2. -/
def adts_private_bit (h : List Nat) : Nat := ((h.getD 2 0) >>> 1) % 2

/-- Original-or-copy bit: bit 5 of byte 3. -/
def adts_original_copy (h : List Nat) : Nat := ((h.getD 3 0) >>> 5) % 2

/-- Home bit: bit 4 of byte 3. -/
def adts_home (h : List Nat) : Nat := ((h.getD 3 0) >>> 4) % 2

/-- Copyright id bit: bit 3 of byte 3. -/
def adts_copyright_id_bit (h : List Nat) : Nat := ((h.getD 3 0) >>> 3) % 2

/-- Copyright id start bit: bit 2 of byte 3. -/
def adts_copyright_id_start (h : List Nat) : Nat := ((h.getD 3 0) >>> 2) % 2

/-- Thirteen-bit frame-length field: low two bits of byte 3, all of byte 4,
top three bits of byte 5. -/
def adts_frame_length_field (h : List Nat) : Nat :=
  ((h.getD 3 0) % 4) <<< 11 ||| ((h.getD 4 0) <<< 3) ||| ((h.getD 5 0) >>> 5)

/-- Eleven-bit buffer-fullness field: low five bits of byte 5 and top six
bits of byte 6. -/
def adts_buffer_fullness (h : List Nat) : Nat :=
  ((h.getD 5 0) % 32) <<< 6 ||| ((h.getD 6 0) >>> 2)

/-- Two-bit number-of-raw-data-blocks-minus-one field: low two bits of byte 6. -/
def adts_raw_data_blocks (h : List Nat) : Nat := (h.getD 6 0) % 4

/-- Frame length value computed by construct_adts_header: header size 7 plus
payload length, as a u16 (both the cast of the length and the sum wrap). -/
def adts_frame_len (s : Mp4Sample) : Nat := (7 + s.bytes.length % 65536) % 65536

/-! Models of the stateful external collaborators of src/lib.rs. -/

/-- Decidable equality for Except results, used to evaluate theorems about
oracle scripts on concrete inputs. -/
instance exceptDecidableEq {ε α : Type} [DecidableEq ε] [DecidableEq α] :
    DecidableEq (Except ε α)
  | Except.ok a, Except.ok b =>
    if h : a = b then isTrue (by rw [h])
    else isFalse (by intro hh; injection hh; contradiction)
  | Except.ok _, Except.error _ => isFalse (by intro hh; exact Except.noConfusion hh)
  | Except.error _, Except.ok _ => isFalse (by intro hh; exact Except.noConfusion hh)
  | Except.error a, Except.error b =>
    if h : a = b then isTrue (by rw [h])
    else isFalse (by intro hh; injection hh; contradiction)

/-- One response of the external fdk-aac decoder to a decode_frame call:
either a failure code, or success together with the frame data the decoder
writes into the caller-supplied buffer and the frame size it subsequently
reports through decoded_frame_size. -/
structure FrameEvent where
  result : Option DecoderError
  pcm : List Int
  frame_size : Nat
  deriving DecidableEq

/-- Oracle model of the external fdk-aac decoder (fdk_aac::dec::Decoder):
scripted responses for decode_frame and fill calls, plus the currently
reported decoded frame size. -/
structure AacDecoder where
  decode_script : List FrameEvent
  fill_script : List (Except DecoderError Nat)
  frame_size : Nat
  deriving DecidableEq

/-- Writing a decoded frame into the caller-supplied output buffer: the
decoder overwrites a prefix of the buffer and leaves the remainder. -/
def write_into (buf data : List Int) : List Int :=
  data.take buf.length ++ buf.drop data.length

/-- Model of Decoder::decode_frame of the fdk-aac crate: consume the next
scripted event; on success the frame data is written into the buffer and the
reported frame size is updated. An exhausted script answers with a generic
failure code. -/
def AacDecoder.decode_frame (d : AacDecoder) (pcm : List Int) :
    Option DecoderError × AacDecoder × List Int :=
  match d.decode_script with
  | [] => (some DecoderError.UNKNOWN, d, pcm)
  | e :: rest =>
    match e.result with
    | none => (none, { d with decode_script := rest, frame_size := e.frame_size },
               write_into pcm e.pcm)
    | some err => (some err, { d with decode_script := rest }, pcm)

/-- Model of Decoder::fill of the fdk-aac crate: the count of consumed bytes
(or an error) is the next scripted response. -/
def AacDecoder.fill (d : AacDecoder) (_bytes : List Nat) :
    Except DecoderError Nat × AacDecoder :=
  match d.fill_script with
  | [] => (Except.error DecoderError.UNKNOWN, d)
  | r :: rest => (r, { d with fill_script := rest })

/-- Model of decoded_frame_size of the fdk-aac crate. -/
def AacDecoder.decoded_frame_size (d : AacDecoder) : Nat := d.frame_size

/-- One track of the external mp4 demuxer (mp4::Mp4Track), restricted to the
accessors the library uses. Each accessor is fallible, as in the crate. -/
structure Mp4Track where
  track_id : Nat
  media_type : Except Unit MediaType
  audio_profile : Except Unit AudioObjectType
  sample_freq_index : Except Unit SampleFreqIndex
  channel_config : Except Unit ChannelConfig
  deriving DecidableEq

/-- Model of the external mp4 demuxer (mp4::Mp4Reader): the track map, keyed
by track id as in the crate, and the read_sample accessor, which for a given
track id and 1-based sample position returns an error, no sample
(end of track) or a sample. -/
structure Mp4Reader where
  tracks : List (Nat × Mp4Track)
  read_sample : Nat → Nat → Except Unit (Option Mp4Sample)

/-- Lookup in the track map (HashMap::get keyed by track id). -/
def tracks_get (tracks : List (Nat × Mp4Track)) (key : Nat) : Option Mp4Track :=
  match tracks with
  | [] => none
  | (k, t) :: rest => if k = key then some t else tracks_get rest key

/-- Oracle model of the raw byte source (the reader R of the aac path):
scripted responses for read calls. -/
structure AacReader where
  read_script : List (Except Nat (List Nat))

/-- Model of Read::read on the raw backend: the next scripted outcome, with
the delivered bytes truncated to the requested buffer length, since a reader
writes at most as many bytes as the buffer holds. -/
def AacReader.read (r : AacReader) (buf_len : Nat) : Except Nat (List Nat) × AacReader :=
  match r.read_script with
  | [] => (Except.ok [], r)
  | Except.error e :: rest => (Except.error e, { read_script := rest })
  | Except.ok data :: rest => (Except.ok (data.take buf_len), { read_script := rest })

/-- File container format (enum Format in src/lib.rs). -/
inductive Format where
  | Mp4
  | Aac

/-- Underlying reader (enum Reader in src/lib.rs). -/
inductive Reader where
  | Mp4Reader (r : Mp4Reader)
  | AacReader (r : AacReader)

/-- Decoder state (struct Decoder in src/lib.rs). -/
structure Decoder where
  format : Format
  reader : Reader
  aac_decoder : AacDecoder
  bytes : List Nat
  current_pcm_index : Nat
  current_pcm : List Int
  track_id : Nat
  position : Nat
  iter_error : Option Error

/-- Constructor for the raw aac path (Decoder::new_aac). The fresh external
decoder is passed in as its oracle model. -/
def Decoder.new_aac (reader : AacReader) (aac_decoder : AacDecoder) : Decoder :=
  { format := Format.Aac
    reader := Reader.AacReader reader
    aac_decoder := aac_decoder
    bytes := []
    current_pcm_index := 0
    current_pcm := []
    track_id := 0
    position := 1
    iter_error := none }

/-- Track scan of Decoder::new_mpeg4: iterate over the track map values and
select the id of the first track whose media type reads as AAC; tracks whose
media type cannot be read are skipped. -/
def find_aac_track : List (Nat × Mp4Track) → Option Nat
  | [] => none
  | (_, track) :: rest =>
    match track.media_type with
    | Except.error _ => find_aac_track rest
    | Except.ok media_type =>
      match media_type with
      | MediaType.AAC => some track.track_id
      | _ => find_aac_track rest

/-- Constructor for the container path (Decoder::new_mpeg4). The result of
the external header parse is passed in: a parse failure maps to
FileHeaderError, otherwise the track scan selects the AAC track or fails
with TrackNotFound. -/
def Decoder.new_mpeg4 (header : Except Unit Mp4Reader) (aac_decoder : AacDecoder) :
    Except Error Decoder :=
  match header with
  | Except.error _ => Except.error Error.FileHeaderError
  | Except.ok mp4 =>
    match find_aac_track mp4.tracks with
    | none => Except.error Error.TrackNotFound
    | some track_id =>
      Except.ok
        { format := Format.Mp4
          reader := Reader.Mp4Reader mp4
          aac_decoder := aac_decoder
          bytes := []
          current_pcm_index := 0
          current_pcm := []
          track_id := track_id
          position := 1
          iter_error := none }

/-- Result of one decode_next_sample call: Ok(Some sample), Ok(None) for end
of stream, Err(e), or a Rust panic (out-of-bounds index or slice). -/
inductive StepResult where
  | ok (sample : Option Int)
  | error (e : Error)
  | panic
  deriving DecidableEq

/-- Result of the refill block inside decode_next_sample: an early error
return, an early Ok(None) end-of-stream return, or continuation with the
updated decoder state. -/
inductive RefillResult where
  | err (e : Error) (s : Decoder)
  | eof (s : Decoder)
  | cont (s : Decoder)

/-- Container arm of the refill block (src/lib.rs lines 162-189): read the
sample at the stored track id and position, look the track up under key
track_id - 1, read its codec parameters, build the ADTS header, and replace
the byte buffer by header plus payload, advancing the position. -/
def refill_mp4 (self : Decoder) (mp4_reader : Mp4Reader) : RefillResult :=
  match mp4_reader.read_sample self.track_id self.position with
  | Except.error _ => RefillResult.err Error.SamplesError self
  | Except.ok none => RefillResult.eof self
  | Except.ok (some sample) =>
    match tracks_get mp4_reader.tracks (self.track_id - 1) with
    | none => RefillResult.err Error.TrackNotFound self
    | some track =>
      match track.audio_profile with
      | Except.error _ => RefillResult.err Error.TrackReadingError self
      | Except.ok object_type =>
        match track.sample_freq_index with
        | Except.error _ => RefillResult.err Error.TrackReadingError self
        | Except.ok sample_freq_index =>
          match track.channel_config with
          | Except.error _ => RefillResult.err Error.TrackReadingError self
          | Except.ok channel_config =>
            match construct_adts_header object_type sample_freq_index channel_config
                sample with
            | Except.error e => RefillResult.err e self
            | Except.ok adts_header =>
              RefillResult.cont
                { self with
                  bytes := adts_header ++ sample.bytes
                  position := self.position + 1 }

/-- Raw arm of the refill block (src/lib.rs lines 191-203): request up to
8192 minus the buffered length bytes; zero bytes read is end of stream;
otherwise the whole requested-size buffer (read bytes followed by the zero
padding left in it) is appended to the byte buffer. -/
def refill_aac (self : Decoder) (aac_reader : AacReader) : RefillResult :=
  let old_bytes_len := self.bytes.length
  match aac_reader.read (8192 - old_bytes_len) with
  | (Except.error err, reader') =>
    RefillResult.err (Error.ReaderError err) { self with reader := Reader.AacReader reader' }
  | (Except.ok data, reader') =>
    let bytes_read := data.length
    let self := { self with reader := Reader.AacReader reader' }
    if bytes_read = 0 then RefillResult.eof self
    else
      let new_bytes := data ++ List.replicate (8192 - old_bytes_len - bytes_read) 0
      RefillResult.cont { self with bytes := self.bytes ++ new_bytes }

/-- Emission step (src/lib.rs lines 224-226): index the current pcm block at
the cursor and advance the cursor. An out-of-bounds cursor is a Rust panic. -/
def emit (self : Decoder) : StepResult × Decoder :=
  if h : self.current_pcm_index < self.current_pcm.length then
    (StepResult.ok (some (self.current_pcm.get ⟨self.current_pcm_index, h⟩)),
     { self with current_pcm_index := self.current_pcm_index + 1 })
  else
    (StepResult.panic, self)

/-- Post-decode block (src/lib.rs lines 217-226): truncate the decoded block
to the reported frame size when that is smaller, reset the cursor, emit. -/
def finish_decode (self : Decoder) (pcm : List Int) : StepResult × Decoder :=
  let decoded_frame_size := self.aac_decoder.decoded_frame_size
  let pcm := if decoded_frame_size < pcm.length then pcm.take decoded_frame_size else pcm
  emit { self with current_pcm := pcm, current_pcm_index := 0 }

/-- Fill-and-retry block (src/lib.rs lines 205-211): hand the byte buffer to
the decoder fill, keep only the unconsumed suffix (slicing past the end is a
Rust panic), and retry the decode step once. -/
def fill_and_retry (self : Decoder) (pcm : List Int) : StepResult × Decoder :=
  match AacDecoder.fill self.aac_decoder self.bytes with
  | (Except.error err, dec') =>
    (StepResult.error (Error.TrackDecodingError err), { self with aac_decoder := dec' })
  | (Except.ok bytes_filled, dec') =>
    let self := { self with aac_decoder := dec' }
    if bytes_filled ≤ self.bytes.length then
      let self := { self with bytes := self.bytes.drop bytes_filled }
      match AacDecoder.decode_frame self.aac_decoder pcm with
      | (some err, dec2, _) =>
        (StepResult.error (Error.TrackDecodingError err), { self with aac_decoder := dec2 })
      | (none, dec2, pcm2) =>
        finish_decode { self with aac_decoder := dec2 } pcm2
  else
      (StepResult.panic, self)

/-- Decoder::decode_next_sample (src/lib.rs lines 155-227). When the cursor
has reached the block length a refill is attempted: a decode step, then on
one of the two recoverable codes one pull from the backend followed by fill
and one retry; any other failure is fatal. Then one sample is emitted. -/
def decode_next_sample (self : Decoder) : StepResult × Decoder :=
  if self.current_pcm_index = self.current_pcm.length then
    let pcm : List Int := List.replicate 8192 0
    match AacDecoder.decode_frame self.aac_decoder pcm with
    | (result1, dec1, pcm1) =>
      let self := { self with aac_decoder := dec1 }
      match result1 with
      | some DecoderError.NOT_ENOUGH_BITS | some DecoderError.TRANSPORT_SYNC_ERROR =>
        (match (match self.reader with
                | Reader.Mp4Reader mp4_reader => refill_mp4 self mp4_reader
                | Reader.AacReader aac_reader => refill_aac self aac_reader) with
         | RefillResult.err e s => (StepResult.error e, s)
         | RefillResult.eof s => (StepResult.ok none, s)
         | RefillResult.cont s => fill_and_retry s pcm1)
      | some err => (StepResult.error (Error.TrackDecodingError err), self)
      | none => finish_decode self pcm1
  else
    emit self

/-- Result of one Iterator::next call. -/
inductive NextResult where
  | item (v : Int)
  | done
  | panicked
  deriving DecidableEq

/-- Iterator::next for Decoder (src/lib.rs lines 238-246): an error from
decode_next_sample is stored in iter_error and None is returned. -/
def Decoder.next (self : Decoder) : NextResult × Decoder :=
  match decode_next_sample self with
  | (StepResult.ok (some v), s') => (NextResult.item v, s')
  | (StepResult.ok none, s') => (NextResult.done, s')
  | (StepResult.error err, s') => (NextResult.done, { s' with iter_error := some err })
  | (StepResult.panic, s') => (NextResult.panicked, s')

/-- Repeated pulls from the iterator, returning the final decoder state. -/
def iterate_next : Nat → Decoder → Decoder
  | 0, s => s
  | n + 1, s => iterate_next n (Decoder.next s).2

/-- Closed form of the seven header bytes produced for a supported object
type, proven equal to the output of construct_adts_header below. -/
def adts_bytes (sfi : SampleFreqIndex) (cc : ChannelConfig) (s : Mp4Sample) : List Nat :=
  [255, 241,
   66 + 4 * sample_freq_index_code sfi + channel_config_code cc / 4,
   (64 * (channel_config_code cc % 4) + 60) ||| (adts_frame_len s % 16384 / 2048),
   adts_frame_len s % 2048 / 8,
   32 * (adts_frame_len s % 8) + 31,
   252]

/-! Arithmetic helper lemmas about the bit operations of the header builder. -/

/-- Disjoint bitwise or is addition: a multiple of 2 to the k or-ed with a
value below 2 to the k. Base form with the multiple written as a product. -/
theorem two_pow_mul_lor_of_lt : ∀ (k c b : Nat), b < 2 ^ k → (2 ^ k * c) ||| b = 2 ^ k * c + b := by
  intro k
  induction k with
  | zero =>
    intro c b hb
    have hb0 : b = 0 := by omega
    subst hb0
    simp
  | succ k ih =>
    intro c b hb
    have hdecomp : Nat.bit b.bodd b.div2 = b := Nat.bit_decomp b
    have h2 : 2 ^ (k + 1) * c = Nat.bit false (2 ^ k * c) := by
      simp only [Nat.bit_false]
      rw [Nat.pow_succ]
      ring
    have hdiv2 : b.div2 < 2 ^ k := by
      rw [Nat.div2_val]
      have hp : 2 ^ (k + 1) = 2 * 2 ^ k := by ring
      omega
    calc 2 ^ (k + 1) * c ||| b
        = Nat.bit false (2 ^ k * c) ||| Nat.bit b.bodd b.div2 := by rw [h2, hdecomp]
      _ = Nat.bit (false || b.bodd) ((2 ^ k * c) ||| b.div2) := by rw [Nat.lor_bit]
      _ = Nat.bit b.bodd (2 ^ k * c + b.div2) := by rw [ih c b.div2 hdiv2]; simp
      _ = 2 ^ (k + 1) * c + b := by
          have hv : Nat.bit b.bodd (2 ^ k * c + b.div2)
              = 2 * (2 ^ k * c + b.div2) + cond b.bodd 1 0 := by
            cases b.bodd <;> simp [Nat.bit]
          have hbd : cond b.bodd 1 0 + 2 * b.div2 = b := Nat.bodd_add_div2 b
          have hm : 2 ^ (k + 1) * c = 2 * (2 ^ k * c) := by ring
          rw [hv, hm]
          omega

/-- Disjoint bitwise or is addition, in divisibility form. -/
theorem lor_add_of_lt (a b k : Nat) (hb : b < 2 ^ k) (ha : a % 2 ^ k = 0) :
    a ||| b = a + b := by
  have hdvd : 2 ^ k ∣ a := Nat.dvd_of_mod_eq_zero ha
  rcases hdvd with ⟨c, hc⟩
  subst hc
  exact two_pow_mul_lor_of_lt k c b hb

/-- Evaluation of get_bits with range 3..5 on a u16 value. -/
theorem get_bits_3_5_eq (m : Nat) :
    get_bits (m % 65536) 3 5 = m % 65536 % 16384 / 2048 := by
  simp only [get_bits, Nat.shiftLeft_eq, Nat.shiftRight_eq_div_pow]
  norm_num
  omega

/-- Evaluation of get_bits with range 6..13 on a u16 value. -/
theorem get_bits_6_13_eq (m : Nat) :
    get_bits (m % 65536) 6 13 = m % 65536 % 2048 / 8 := by
  simp only [get_bits, Nat.shiftLeft_eq, Nat.shiftRight_eq_div_pow]
  norm_num
  omega

/-- Evaluation of get_bits with range 14..16 on a u16 value. -/
theorem get_bits_14_16_eq (m : Nat) :
    get_bits (m % 65536) 14 16 = m % 65536 % 8 := by
  simp only [get_bits, Nat.shiftLeft_eq, Nat.shiftRight_eq_div_pow]
  norm_num
  omega

/-- The u8 cast of the 3..5 field is the identity. -/
theorem mod_16384_div_2048_mod_256 (x : Nat) : x % 16384 / 2048 % 256 = x % 16384 / 2048 :=
  Nat.mod_eq_of_lt (by omega)

/-- The u8 cast of the 6..13 field is the identity. -/
theorem mod_2048_div_8_mod_256 (x : Nat) : x % 2048 / 8 % 256 = x % 2048 / 8 :=
  Nat.mod_eq_of_lt (by omega)

/-- The u8 cast of the 14..16 field is the identity. -/
theorem mod_8_mod_256 (x : Nat) : x % 8 % 256 = x % 8 :=
  Nat.mod_eq_of_lt (by omega)

/-- Closed form of byte 5 of the header. -/
theorem byte5_form (x : Nat) : (((x % 8) <<< 5) % 256) ||| 31 = 32 * (x % 8) + 31 := by
  have h1 : ((x % 8) <<< 5) % 256 = 32 * (x % 8) := by
    rw [Nat.shiftLeft_eq]
    norm_num
    omega
  rw [h1]
  exact lor_add_of_lt (32 * (x % 8)) 31 5 (by norm_num) (by omega)

/-- Bound on the sample-frequency-index code. -/
theorem sample_freq_index_code_le (sfi : SampleFreqIndex) : sample_freq_index_code sfi ≤ 12 := by
  cases sfi <;> simp [sample_freq_index_code]

/-- Bounds on the channel-configuration code. -/
theorem channel_config_code_bounds (cc : ChannelConfig) :
    1 ≤ channel_config_code cc ∧ channel_config_code cc ≤ 7 := by
  cases cc <;> simp [channel_config_code]

/-- Evaluation of the H-bit extraction on the channel code. -/
theorem get_bits_u8_cc_6_6 (cc : ChannelConfig) :
    get_bits_u8 (channel_config_code cc) 6 6 = channel_config_code cc / 4 := by
  cases cc <;> rfl

/-- Evaluation of the HH-bits extraction on the channel code. -/
theorem get_bits_u8_cc_7_8 (cc : ChannelConfig) :
    get_bits_u8 (channel_config_code cc) 7 8 = channel_config_code cc % 4 := by
  cases cc <;> rfl

/-- Closed form of byte 2 of the header. -/
theorem byte2_form (x c : Nat) (hx : x ≤ 12) (hc : c ≤ 7) :
    ((16 ||| x) <<< 1 % 256 ||| 1) <<< 1 % 256 ||| c / 4 = 66 + 4 * x + c / 4 := by
  have p1 : (2 : Nat) ^ 1 = 2 := by norm_num
  have p4 : (2 : Nat) ^ 4 = 16 := by norm_num
  have h1 : (16 : Nat) ||| x = 16 + x := lor_add_of_lt 16 x 4 (by rw [p4]; omega) (by rw [p4])
  rw [h1]
  have h2 : (16 + x) <<< 1 % 256 = (16 + x) * 2 := by
    rw [Nat.shiftLeft_eq, p1]
    omega
  rw [h2]
  have h3 : (16 + x) * 2 ||| 1 = (16 + x) * 2 + 1 :=
    lor_add_of_lt _ 1 1 (by rw [p1]; omega) (by rw [p1]; omega)
  rw [h3]
  have h4 : ((16 + x) * 2 + 1) <<< 1 % 256 = ((16 + x) * 2 + 1) * 2 := by
    rw [Nat.shiftLeft_eq, p1]
    omega
  rw [h4]
  have h5 : ((16 + x) * 2 + 1) * 2 ||| c / 4 = ((16 + x) * 2 + 1) * 2 + c / 4 :=
    lor_add_of_lt _ _ 1 (by rw [p1]; omega) (by rw [p1]; omega)
  rw [h5]
  omega

/-- Closed form of the fixed part of byte 3 of the header. -/
theorem byte3_left_form (c : Nat) :
    ((c % 4) <<< 4 % 256 ||| 15) <<< 2 % 256 = 64 * (c % 4) + 60 := by
  have p2 : (2 : Nat) ^ 2 = 4 := by norm_num
  have p4 : (2 : Nat) ^ 4 = 16 := by norm_num
  have h1 : (c % 4) <<< 4 % 256 = c % 4 * 16 := by
    rw [Nat.shiftLeft_eq, p4]
    omega
  rw [h1]
  have h2 : c % 4 * 16 ||| 15 = c % 4 * 16 + 15 :=
    lor_add_of_lt _ 15 4 (by rw [p4]; omega) (by rw [p4]; omega)
  rw [h2, Nat.shiftLeft_eq, p2]
  omega

/-- Evaluation of construct_adts_header on the three supported object types:
the result is the closed-form byte list. -/
theorem construct_adts_header_supported (ot : AudioObjectType) (sfi : SampleFreqIndex)
    (cc : ChannelConfig) (s : Mp4Sample)
    (hot : ot = AudioObjectType.AacLowComplexity ∨
           ot = AudioObjectType.SpectralBandReplication ∨
           ot = AudioObjectType.ParametricStereo) :
    construct_adts_header ot sfi cc s = Except.ok (adts_bytes sfi cc s) := by
  have hcode : audio_object_type_code ot = Except.ok 2 := by
    rcases hot with h | h | h <;> subst h <;> rfl
  have hsfi := sample_freq_index_code_le sfi
  have hcc := channel_config_code_bounds cc
  simp [construct_adts_header, hcode, adts_bytes, adts_frame_len,
    get_bits_u8_cc_6_6, get_bits_u8_cc_7_8, get_bits_3_5_eq, get_bits_6_13_eq,
    get_bits_14_16_eq, mod_16384_div_2048_mod_256, mod_2048_div_8_mod_256,
    mod_8_mod_256, byte5_form]
  constructor
  · exact byte2_form _ _ hsfi hcc.2
  · exact congrArg (fun t => t ||| ((7 + s.bytes.length) % 65536 % 16384 / 2048))
      (byte3_left_form _)

/-- A successful header build forces the object type to be one of the three
supported ones. -/
theorem construct_ok_supported (ot : AudioObjectType) (sfi : SampleFreqIndex)
    (cc : ChannelConfig) (s : Mp4Sample) (h : List Nat)
    (hok : construct_adts_header ot sfi cc s = Except.ok h) :
    ot = AudioObjectType.AacLowComplexity ∨ ot = AudioObjectType.SpectralBandReplication ∨
    ot = AudioObjectType.ParametricStereo := by
  cases ot <;> simp_all [construct_adts_header, audio_object_type_code]

/-- An unsupported object type makes the header builder fail with an error
carrying that type. -/
theorem construct_adts_header_unsupported (ot : AudioObjectType) (sfi : SampleFreqIndex)
    (cc : ChannelConfig) (s : Mp4Sample)
    (hns : ¬ (ot = AudioObjectType.AacLowComplexity ∨ ot = AudioObjectType.SpectralBandReplication ∨
      ot = AudioObjectType.ParametricStereo)) :
    construct_adts_header ot sfi cc s = Except.error (Error.UnsupportedObjectType ot) := by
  cases ot <;> first
    | rfl
    | exact absurd (Or.inl rfl) hns
    | exact absurd (Or.inr (Or.inl rfl)) hns
    | exact absurd (Or.inr (Or.inr rfl)) hns

/-- Bits 2 to 5 of byte 3 are set for every channel code and every value of
the two frame-length bits that share the byte. -/
theorem byte3_bits_decide : ∀ l : Nat, l < 4 → ∀ m : Nat, m < 8 →
    ((64 * l + 60 ||| m) >>> 5) % 2 = 1 ∧ ((64 * l + 60 ||| m) >>> 4) % 2 = 1 ∧
    ((64 * l + 60 ||| m) >>> 3) % 2 = 1 ∧ ((64 * l + 60 ||| m) >>> 2) % 2 = 1 := by decide

/-- The low two frame-length bits of byte 3 read back out of the shared
byte, for frame lengths below 8192. -/
theorem byte3_mod_4 (l m : Nat) (hm : m < 4) :
    (64 * l + 60 ||| m) % 4 = m := by
  have hadd : 64 * l + 60 ||| m = 64 * l + 60 + m := by
    have p2 : (2 : Nat) ^ 2 = 4 := by norm_num
    exact lor_add_of_lt _ _ 2 (by rw [p2]; omega) (by rw [p2]; omega)
  rw [hadd]
  omega

/-- C1 (counterexample): for the low-complexity object type, frequency index
4, stereo and an empty payload, the produced header has the private bit, the
original-or-copy bit, the home bit, the copyright id bit and the copyright id
start bit all equal to 1, so they are not all 0 as the claim states. -/
theorem C1_counterexample :
    construct_adts_header AudioObjectType.AacLowComplexity SampleFreqIndex.Freq44100
      ChannelConfig.Stereo ⟨[]⟩ = Except.ok [255, 241, 82, 188, 0, 255, 252] ∧
    ¬ (adts_private_bit [255, 241, 82, 188, 0, 255, 252] = 0 ∧
       adts_original_copy [255, 241, 82, 188, 0, 255, 252] = 0 ∧
       adts_home [255, 241, 82, 188, 0, 255, 252] = 0 ∧
       adts_copyright_id_bit [255, 241, 82, 188, 0, 255, 252] = 0 ∧
       adts_copyright_id_start [255, 241, 82, 188, 0, 255, 252] = 0) := by
  decide

/-- C1 (amended): in every header produced by the ADTS header builder, the
private bit, the original-or-copy bit, the home bit, the copyright id bit
and the copyright id start bit are all 1. -/
theorem C1_fixed_bits_are_one (ot : AudioObjectType) (sfi : SampleFreqIndex)
    (cc : ChannelConfig) (s : Mp4Sample) (h : List Nat)
    (hok : construct_adts_header ot sfi cc s = Except.ok h) :
    adts_private_bit h = 1 ∧ adts_original_copy h = 1 ∧ adts_home h = 1 ∧
    adts_copyright_id_bit h = 1 ∧ adts_copyright_id_start h = 1 := by
  have hot := construct_ok_supported ot sfi cc s h hok
  rw [construct_adts_header_supported ot sfi cc s hot] at hok
  have hh : adts_bytes sfi cc s = h := by injection hok
  subst hh
  have hsfi := sample_freq_index_code_le sfi
  have hcc := channel_config_code_bounds cc
  have hp1 : (2 : Nat) ^ 1 = 2 := by norm_num
  have hb3 := byte3_bits_decide (channel_config_code cc % 4) (by omega)
    (adts_frame_len s % 16384 / 2048) (by omega)
  refine ⟨?_, ?_, ?_, ?_, ?_⟩
  · simp only [adts_private_bit, adts_bytes, List.getD_cons_succ, List.getD_cons_zero]
    rw [Nat.shiftRight_eq_div_pow, hp1]
    omega
  · simp only [adts_original_copy, adts_bytes, List.getD_cons_succ, List.getD_cons_zero]
    exact hb3.1
  · simp only [adts_home, adts_bytes, List.getD_cons_succ, List.getD_cons_zero]
    exact hb3.2.1
  · simp only [adts_copyright_id_bit, adts_bytes, List.getD_cons_succ, List.getD_cons_zero]
    exact hb3.2.2.1
  · simp only [adts_copyright_id_start, adts_bytes, List.getD_cons_succ, List.getD_cons_zero]
    exact hb3.2.2.2

/-- C1 (witness): the amended theorem evaluated on the counterexample input. -/
theorem C1_fixed_bits_witness :
    adts_private_bit [255, 241, 82, 188, 0, 255, 252] = 1 ∧
    adts_original_copy [255, 241, 82, 188, 0, 255, 252] = 1 ∧
    adts_home [255, 241, 82, 188, 0, 255, 252] = 1 ∧
    adts_copyright_id_bit [255, 241, 82, 188, 0, 255, 252] = 1 ∧
    adts_copyright_id_start [255, 241, 82, 188, 0, 255, 252] = 1 :=
  C1_fixed_bits_are_one AudioObjectType.AacLowComplexity SampleFreqIndex.Freq44100
    ChannelConfig.Stereo ⟨[]⟩ _ (by decide)

/-- C5: for object types low-complexity, spectral-band-replication and
parametric-stereo the header builder writes profile field value
low-complexity code minus one (2 - 1) into the header; for every other audio
object type it returns an unsupported-object-type error carrying that
offending type and produces no header. -/
theorem C5_profile_field (ot : AudioObjectType) (sfi : SampleFreqIndex)
    (cc : ChannelConfig) (s : Mp4Sample) :
    ((ot = AudioObjectType.AacLowComplexity ∨ ot = AudioObjectType.SpectralBandReplication ∨
      ot = AudioObjectType.ParametricStereo) →
      ∀ h, construct_adts_header ot sfi cc s = Except.ok h →
        adts_profile_field h = 2 - 1) ∧
    (¬ (ot = AudioObjectType.AacLowComplexity ∨ ot = AudioObjectType.SpectralBandReplication ∨
      ot = AudioObjectType.ParametricStereo) →
      construct_adts_header ot sfi cc s = Except.error (Error.UnsupportedObjectType ot)) := by
  constructor
  · intro hot h hok
    rw [construct_adts_header_supported ot sfi cc s hot] at hok
    have hh : adts_bytes sfi cc s = h := by injection hok
    subst hh
    have hsfi := sample_freq_index_code_le sfi
    have hcc := channel_config_code_bounds cc
    simp only [adts_profile_field, adts_bytes, List.getD_cons_succ, List.getD_cons_zero]
    rw [Nat.shiftRight_eq_div_pow]
    have hp6 : (2 : Nat) ^ 6 = 64 := by norm_num
    rw [hp6]
    omega
  · intro hns
    exact construct_adts_header_unsupported ot sfi cc s hns

/-- C5 (witness): profile field on a supported input, error on AacMain. -/
theorem C5_profile_field_witness :
    adts_profile_field [255, 241, 82, 188, 0, 255, 252] = 2 - 1 ∧
    construct_adts_header AudioObjectType.AacMain SampleFreqIndex.Freq44100
      ChannelConfig.Stereo ⟨[]⟩
      = Except.error (Error.UnsupportedObjectType AudioObjectType.AacMain) :=
  ⟨(C5_profile_field AudioObjectType.AacLowComplexity SampleFreqIndex.Freq44100
      ChannelConfig.Stereo ⟨[]⟩).1 (Or.inl rfl) _ (by decide),
   (C5_profile_field AudioObjectType.AacMain SampleFreqIndex.Freq44100
      ChannelConfig.Stereo ⟨[]⟩).2 (by decide)⟩

/-- C6: for every payload byte length up to 8184, the frame-length field of
the produced header (low two bits of byte 3, all of byte 4, high three bits
of byte 5, read as one 13-bit value) equals payload length plus 7. -/
theorem C6_frame_length_field (ot : AudioObjectType) (sfi : SampleFreqIndex)
    (cc : ChannelConfig) (payload : List Nat) (h : List Nat)
    (hlen : payload.length ≤ 8184)
    (hok : construct_adts_header ot sfi cc ⟨payload⟩ = Except.ok h) :
    adts_frame_length_field h = payload.length + 7 := by
  have hot := construct_ok_supported ot sfi cc ⟨payload⟩ h hok
  rw [construct_adts_header_supported ot sfi cc ⟨payload⟩ hot] at hok
  have hh : adts_bytes sfi cc ⟨payload⟩ = h := by injection hok
  subst hh
  have hcc := channel_config_code_bounds cc
  have hfl : adts_frame_len ⟨payload⟩ = payload.length + 7 := by
    simp only [adts_frame_len]
    omega
  simp only [adts_frame_length_field, adts_bytes, List.getD_cons_succ, List.getD_cons_zero,
    hfl]
  rw [byte3_mod_4 (channel_config_code cc % 4) ((payload.length + 7) % 16384 / 2048)
    (by omega)]
  have hp3 : (2 : Nat) ^ 3 = 8 := by norm_num
  have hp5 : (2 : Nat) ^ 5 = 32 := by norm_num
  have hp11 : (2 : Nat) ^ 11 = 2048 := by norm_num
  rw [Nat.shiftLeft_eq, Nat.shiftLeft_eq, Nat.shiftRight_eq_div_pow, hp3, hp5, hp11]
  have h5 : (32 * ((payload.length + 7) % 8) + 31) / 32 = (payload.length + 7) % 8 := by
    omega
  rw [h5]
  have hor1 : (payload.length + 7) % 16384 / 2048 * 2048 |||
      (payload.length + 7) % 2048 / 8 * 8
      = (payload.length + 7) % 16384 / 2048 * 2048 + (payload.length + 7) % 2048 / 8 * 8 := by
    refine lor_add_of_lt _ _ 11 ?_ ?_
    · rw [hp11]
      omega
    · rw [hp11]
      omega
  rw [hor1]
  have hor2 : (payload.length + 7) % 16384 / 2048 * 2048 + (payload.length + 7) % 2048 / 8 * 8 |||
      (payload.length + 7) % 8
      = (payload.length + 7) % 16384 / 2048 * 2048 + (payload.length + 7) % 2048 / 8 * 8 +
        (payload.length + 7) % 8 := by
    refine lor_add_of_lt _ _ 3 ?_ ?_
    · rw [hp3]
      omega
    · rw [hp3]
      omega
  rw [hor2]
  omega

/-- C6 (witness): an empty payload gives frame-length field 7. -/
theorem C6_frame_length_field_witness :
    adts_frame_length_field [255, 241, 82, 188, 0, 255, 252] = List.length ([] : List Nat) + 7 :=
  C6_frame_length_field AudioObjectType.AacLowComplexity SampleFreqIndex.Freq44100
    ChannelConfig.Stereo [] _ (by decide) (by decide)

/-- C7: for every supported object type, every sample-frequency index and
every channel configuration, the produced header is exactly 7 bytes, begins
with the 12-bit sync word 0xFFF, has protection-absent 1, buffer-fullness
0x7FF and number-of-raw-data-blocks-minus-one 0. -/
theorem C7_header_shape (ot : AudioObjectType) (sfi : SampleFreqIndex)
    (cc : ChannelConfig) (s : Mp4Sample)
    (hot : ot = AudioObjectType.AacLowComplexity ∨ ot = AudioObjectType.SpectralBandReplication ∨
      ot = AudioObjectType.ParametricStereo) :
    ∃ h, construct_adts_header ot sfi cc s = Except.ok h ∧
      h.length = 7 ∧ adts_sync_word h = 4095 ∧ adts_protection_absent h = 1 ∧
      adts_buffer_fullness h = 2047 ∧ adts_raw_data_blocks h = 0 := by
  refine ⟨adts_bytes sfi cc s, construct_adts_header_supported ot sfi cc s hot,
    ?_, ?_, ?_, ?_, ?_⟩
  · rfl
  · simp only [adts_sync_word, adts_bytes, List.getD_cons_succ, List.getD_cons_zero]
    decide
  · simp only [adts_protection_absent, adts_bytes, List.getD_cons_succ, List.getD_cons_zero]
  · simp only [adts_buffer_fullness, adts_bytes, List.getD_cons_succ, List.getD_cons_zero]
    have h31 : (32 * (adts_frame_len s % 8) + 31) % 32 = 31 := by omega
    rw [h31]
    decide
  · simp only [adts_raw_data_blocks, adts_bytes, List.getD_cons_succ, List.getD_cons_zero]

/-- C7 (witness): the header shape on a concrete supported input. -/
theorem C7_header_shape_witness :
    ∃ h, construct_adts_header AudioObjectType.SpectralBandReplication SampleFreqIndex.Freq96000
        ChannelConfig.Mono ⟨[1, 2, 3]⟩ = Except.ok h ∧
      h.length = 7 ∧ adts_sync_word h = 4095 ∧ adts_protection_absent h = 1 ∧
      adts_buffer_fullness h = 2047 ∧ adts_raw_data_blocks h = 0 :=
  C7_header_shape AudioObjectType.SpectralBandReplication SampleFreqIndex.Freq96000
    ChannelConfig.Mono ⟨[1, 2, 3]⟩ (Or.inr (Or.inl rfl))

/-- Concrete container input for C2: the container holds exactly one track,
the AAC track with id 1, whose codec parameters are all readable, and a
sample is available at every position. -/
def c2_track : Mp4Track :=
  { track_id := 1
    media_type := Except.ok MediaType.AAC
    audio_profile := Except.ok AudioObjectType.AacLowComplexity
    sample_freq_index := Except.ok SampleFreqIndex.Freq44100
    channel_config := Except.ok ChannelConfig.Stereo }

/-- Concrete container reader for C2. -/
def c2_mp4 : Mp4Reader :=
  { tracks := [(1, c2_track)]
    read_sample := fun _ _ => Except.ok (some ⟨[1, 2, 3]⟩) }

/-- Concrete external decoder for C2: the decode step asks for more data, so
the fetch path through the track metadata lookup is taken. -/
def c2_aac_decoder : AacDecoder :=
  { decode_script := [⟨some DecoderError.NOT_ENOUGH_BITS, [], 0⟩]
    fill_script := []
    frame_size := 0 }

/-- C2 (code evaluation at the failing input): construction selects the AAC
track with id 1, the track map holds that track under key 1 and nothing
under key 0, and a sample is available, yet the first fetch fails with
TrackNotFound because the metadata lookup uses key track_id - 1 = 0 instead
of the stored track id. -/
theorem C2_track_lookup_eval :
    (Decoder.new_mpeg4 (Except.ok c2_mp4) c2_aac_decoder).map Decoder.track_id
      = Except.ok 1 ∧
    tracks_get c2_mp4.tracks 1 = some c2_track ∧
    tracks_get c2_mp4.tracks 0 = none ∧
    c2_mp4.read_sample 1 1 = Except.ok (some ⟨[1, 2, 3]⟩) ∧
    (Decoder.new_mpeg4 (Except.ok c2_mp4) c2_aac_decoder).map
        (fun d => (decode_next_sample d).1)
      = Except.ok (StepResult.error Error.TrackNotFound) := by
  refine ⟨rfl, by decide, by decide, rfl, rfl⟩

/-- Concrete raw-path state for C3: two unconsumed bytes are buffered. -/
def c3_state : Decoder :=
  { format := Format.Aac
    reader := Reader.AacReader { read_script := [Except.ok [9]] }
    aac_decoder := { decode_script := [], fill_script := [], frame_size := 0 }
    bytes := [1, 2]
    current_pcm_index := 0
    current_pcm := []
    track_id := 0
    position := 1
    iter_error := none }

/-- Concrete raw reader for C3: the pull returns the single byte 9. -/
def c3_reader : AacReader := { read_script := [Except.ok [9]] }

/-- C3 (counterexample): with bytes 1, 2 buffered and a pull that returns
only the byte 9, the refill leaves the buffer holding the two old bytes, the
byte 9 and then 8189 zero-padding bytes, not just the old bytes plus the
byte that the pull returned. -/
theorem C3_counterexample :
    (match refill_aac c3_state c3_reader with
     | RefillResult.cont s => s.bytes
     | _ => []) = [1, 2] ++ [9] ++ List.replicate 8189 0 ∧
    ¬ (match refill_aac c3_state c3_reader with
       | RefillResult.cont s => s.bytes
       | _ => []) = [1, 2] ++ [9] := by
  constructor
  · rfl
  · decide

/-- C3 (amended): when the decode step fails with a recoverable code, the
raw pull appends the entire requested-size refill buffer — the bytes the
pull returned followed by the zero padding remaining in that buffer — after
the preserved unconsumed contents, while the container pull replaces the
ByteBuffer by the synthesized header followed by the sample payload,
discarding any prior contents. -/
theorem C3_refill_buffer (s : Decoder) :
    (∀ (data : List Nat) (rest : List (Except Nat (List Nat))) (r : AacReader),
      r.read_script = Except.ok data :: rest →
      data.take (8192 - s.bytes.length) ≠ [] →
      refill_aac s r = RefillResult.cont
        { s with
          reader := Reader.AacReader { read_script := rest }
          bytes := s.bytes ++ (data.take (8192 - s.bytes.length) ++
            List.replicate
              (8192 - s.bytes.length - (data.take (8192 - s.bytes.length)).length) 0) }) ∧
    (∀ (m : Mp4Reader) (sample : Mp4Sample) (track : Mp4Track) (ot : AudioObjectType)
      (fi : SampleFreqIndex) (cc : ChannelConfig) (hdr : List Nat),
      m.read_sample s.track_id s.position = Except.ok (some sample) →
      tracks_get m.tracks (s.track_id - 1) = some track →
      track.audio_profile = Except.ok ot →
      track.sample_freq_index = Except.ok fi →
      track.channel_config = Except.ok cc →
      construct_adts_header ot fi cc sample = Except.ok hdr →
      refill_mp4 s m = RefillResult.cont
        { s with bytes := hdr ++ sample.bytes, position := s.position + 1 }) := by
  constructor
  · intro data rest r hscript hne
    have hlen : ¬ (data.take (8192 - s.bytes.length)).length = 0 := by
      intro hh
      exact hne (List.length_eq_zero.mp hh)
    simp only [refill_aac, AacReader.read, hscript]
    rw [if_neg hlen]
  · intro m sample track ot fi cc hdr h1 h2 h3 h4 h5 h6
    simp only [refill_mp4, h1, h2, h3, h4, h5, h6]

/-- Concrete container track for the C3 witness (under key 1, looked up by a
decoder whose stored track id is 2). -/
def c3m_track : Mp4Track :=
  { track_id := 1
    media_type := Except.ok MediaType.H264
    audio_profile := Except.ok AudioObjectType.AacLowComplexity
    sample_freq_index := Except.ok SampleFreqIndex.Freq44100
    channel_config := Except.ok ChannelConfig.Stereo }

/-- Concrete container reader for the C3 witness. -/
def c3m_mp4 : Mp4Reader :=
  { tracks := [(1, c3m_track)]
    read_sample := fun _ _ => Except.ok (some ⟨[1, 2, 3]⟩) }

/-- Concrete container-path state for the C3 witness. -/
def c3m_state : Decoder :=
  { format := Format.Mp4
    reader := Reader.Mp4Reader c3m_mp4
    aac_decoder := { decode_script := [], fill_script := [], frame_size := 0 }
    bytes := [4, 5]
    current_pcm_index := 0
    current_pcm := []
    track_id := 2
    position := 1
    iter_error := none }

/-- C3 (witness): the amended theorem evaluated on concrete pulls. -/
theorem C3_refill_buffer_witness :
    refill_aac c3_state c3_reader = RefillResult.cont
      { c3_state with
        reader := Reader.AacReader { read_script := [] }
        bytes := [1, 2] ++ ([9] ++ List.replicate 8189 0) } ∧
    refill_mp4 c3m_state c3m_mp4 = RefillResult.cont
      { c3m_state with bytes := [255, 241, 82, 188, 1, 95, 252] ++ [1, 2, 3], position := 2 } :=
  ⟨(C3_refill_buffer c3_state).1 [9] [] c3_reader rfl (by decide),
   (C3_refill_buffer c3m_state).2 c3m_mp4 ⟨[1, 2, 3]⟩ c3m_track
     AudioObjectType.AacLowComplexity SampleFreqIndex.Freq44100 ChannelConfig.Stereo
     [255, 241, 82, 188, 1, 95, 252] rfl (by decide) rfl rfl rfl (by decide)⟩

/-- Concrete raw-path state for C4: the first pull hits a reader failure,
and afterwards the external decoder can decode a frame. -/
def c4_state : Decoder :=
  { format := Format.Aac
    reader := Reader.AacReader { read_script := [Except.error 0] }
    aac_decoder :=
      { decode_script := [⟨some DecoderError.NOT_ENOUGH_BITS, [], 0⟩, ⟨none, [5], 1⟩]
        fill_script := []
        frame_size := 0 }
    bytes := []
    current_pcm_index := 0
    current_pcm := []
    track_id := 0
    position := 1
    iter_error := none }

/-- Unfolding of decode_next_sample when the cursor is exhausted and the
first decode step reports one of the two recoverable codes: the refill block
runs on the state with the consumed decode script. -/
theorem decode_next_sample_recoverable (s : Decoder) (e : FrameEvent) (ds : List FrameEvent)
    (hcur : s.current_pcm_index = s.current_pcm.length)
    (hds : s.aac_decoder.decode_script = e :: ds)
    (hrec : e.result = some DecoderError.NOT_ENOUGH_BITS ∨
            e.result = some DecoderError.TRANSPORT_SYNC_ERROR) :
    decode_next_sample s =
      (match (match ({ s with aac_decoder := { s.aac_decoder with decode_script := ds } } :
                Decoder).reader with
              | Reader.Mp4Reader m =>
                refill_mp4 { s with aac_decoder := { s.aac_decoder with decode_script := ds } } m
              | Reader.AacReader r =>
                refill_aac { s with aac_decoder := { s.aac_decoder with decode_script := ds } } r)
        with
       | RefillResult.err e2 s2 => (StepResult.error e2, s2)
       | RefillResult.eof s2 => (StepResult.ok none, s2)
       | RefillResult.cont s2 => fill_and_retry s2 (List.replicate 8192 0)) := by
  rcases hrec with hr | hr <;>
    simp only [decode_next_sample, hcur, if_pos, AacDecoder.decode_frame, hds, hr]

/-- Unfolding of decode_next_sample when the cursor is exhausted and the
first decode step succeeds. -/
theorem decode_next_sample_success (s : Decoder) (e : FrameEvent) (ds : List FrameEvent)
    (hcur : s.current_pcm_index = s.current_pcm.length)
    (hds : s.aac_decoder.decode_script = e :: ds)
    (he : e.result = none) :
    decode_next_sample s = finish_decode
      { s with aac_decoder :=
          { s.aac_decoder with decode_script := ds, frame_size := e.frame_size } }
      (write_into (List.replicate 8192 0) e.pcm) := by
  simp only [decode_next_sample, hcur, if_pos, AacDecoder.decode_frame, hds, he]

/-- Unfolding of finish_decode. -/
theorem finish_decode_eq (self : Decoder) (pcm : List Int) :
    finish_decode self pcm =
      emit { self with
        current_pcm := if self.aac_decoder.frame_size < pcm.length then
          pcm.take self.aac_decoder.frame_size else pcm
        current_pcm_index := 0 } := rfl

/-- Unfolding of emit when the cursor is in bounds. -/
theorem emit_in_bounds (self : Decoder) (h : self.current_pcm_index < self.current_pcm.length) :
    emit self = (StepResult.ok (some (self.current_pcm.get ⟨self.current_pcm_index, h⟩)),
      { self with current_pcm_index := self.current_pcm_index + 1 }) := by
  simp only [emit, dif_pos h]

/-- Unfolding of emit when the cursor is out of bounds: the Rust indexing
panics. -/
theorem emit_out_of_bounds (self : Decoder)
    (h : ¬ self.current_pcm_index < self.current_pcm.length) :
    emit self = (StepResult.panic, self) := by
  simp only [emit, dif_neg h]

/-- C4 (counterexample): the first pull fails, records the reader error in
the last-error slot and reports no more items; yet the very next pull
succeeds and yields a sample, so the sequence does yield further items after
an error. -/
theorem C4_counterexample :
    (Decoder.next c4_state).1 = NextResult.done ∧
    (Decoder.next c4_state).2.iter_error = some (Error.ReaderError 0) ∧
    (Decoder.next (Decoder.next c4_state).2).1 = NextResult.item 5 := by
  refine ⟨by decide, by decide, ?_⟩
  have hs1 : (Decoder.next c4_state).2 =
      { format := Format.Aac
        reader := Reader.AacReader { read_script := [] }
        aac_decoder := { decode_script := [⟨none, [5], 1⟩], fill_script := [], frame_size := 0 }
        bytes := []
        current_pcm_index := 0
        current_pcm := []
        track_id := 0
        position := 1
        iter_error := some (Error.ReaderError 0) } := rfl
  rw [hs1]
  have hdec := decode_next_sample_success
    { format := Format.Aac
      reader := Reader.AacReader { read_script := [] }
      aac_decoder := { decode_script := [⟨none, [5], 1⟩], fill_script := [], frame_size := 0 }
      bytes := []
      current_pcm_index := 0
      current_pcm := []
      track_id := 0
      position := 1
      iter_error := some (Error.ReaderError 0) } ⟨none, [5], 1⟩ [] rfl rfl rfl
  have hw : write_into (List.replicate 8192 (0 : Int)) [5] = 5 :: List.replicate 8191 0 := by
    simp only [write_into, List.length_replicate]
    rfl
  rw [hw, finish_decode_eq] at hdec
  simp only [List.length_cons, List.length_replicate] at hdec
  norm_num at hdec
  rw [emit_in_bounds _ (by decide)] at hdec
  simp only [Decoder.next, hdec]
  rfl

/-- C4 (amended): every per-sample iteration failure is recorded in the
last-error slot, overwriting any prior value, and that pull reports no more
items; the sequence is not latched, so a later pull may decode again and
yield further samples. -/
theorem C4_error_recorded (s s' : Decoder) (e : Error)
    (h : decode_next_sample s = (StepResult.error e, s')) :
    Decoder.next s = (NextResult.done, { s' with iter_error := some e }) := by
  simp [Decoder.next, h]

/-- Concrete state for the C4 witness: an exhausted decode script fails with
a fatal code. -/
def c4w_state : Decoder :=
  { format := Format.Aac
    reader := Reader.AacReader { read_script := [] }
    aac_decoder := { decode_script := [], fill_script := [], frame_size := 0 }
    bytes := []
    current_pcm_index := 0
    current_pcm := []
    track_id := 0
    position := 1
    iter_error := some Error.SamplesError }

/-- C4 (witness): the amended theorem on a concrete failing pull; the prior
slot value is overwritten. -/
theorem C4_error_recorded_witness :
    Decoder.next c4w_state = (NextResult.done,
      { c4w_state with iter_error := some (Error.TrackDecodingError DecoderError.UNKNOWN) }) :=
  C4_error_recorded c4w_state c4w_state (Error.TrackDecodingError DecoderError.UNKNOWN) rfl

/-- Refill on the raw backend reports end of stream when the read delivers
zero bytes. -/
theorem refill_aac_eof (t : Decoder) (r : AacReader) (data : List Nat)
    (rest : List (Except Nat (List Nat)))
    (hrs : r.read_script = Except.ok data :: rest)
    (htake : data.take (8192 - t.bytes.length) = []) :
    refill_aac t r = RefillResult.eof
      { t with reader := Reader.AacReader { read_script := rest } } := by
  simp only [refill_aac, AacReader.read, hrs, htake, List.length_nil, if_pos]

/-- Refill on the container backend reports end of track when no sample is
returned. -/
theorem refill_mp4_eof (t : Decoder) (m : Mp4Reader)
    (hsample : m.read_sample t.track_id t.position = Except.ok none) :
    refill_mp4 t m = RefillResult.eof t := by
  simp only [refill_mp4, hsample]

/-- C8: when end of stream is reported during a refill attempt — zero bytes
read by the raw backend, or no sample from the container backend — the pull
returns no more items and the last-error slot is left unchanged. -/
theorem C8_eof_no_error (s : Decoder) (evt : FrameEvent) (ds : List FrameEvent)
    (hcur : s.current_pcm_index = s.current_pcm.length)
    (hscript : s.aac_decoder.decode_script = evt :: ds)
    (hrec : evt.result = some DecoderError.NOT_ENOUGH_BITS ∨
            evt.result = some DecoderError.TRANSPORT_SYNC_ERROR) :
    (∀ (r : AacReader) (data : List Nat) (rest : List (Except Nat (List Nat))),
      s.reader = Reader.AacReader r →
      r.read_script = Except.ok data :: rest →
      data.take (8192 - s.bytes.length) = [] →
      (Decoder.next s).1 = NextResult.done ∧ (Decoder.next s).2.iter_error = s.iter_error) ∧
    (∀ m : Mp4Reader,
      s.reader = Reader.Mp4Reader m →
      m.read_sample s.track_id s.position = Except.ok none →
      (Decoder.next s).1 = NextResult.done ∧ (Decoder.next s).2.iter_error = s.iter_error) := by
  have hdec := decode_next_sample_recoverable s evt ds hcur hscript hrec
  constructor
  · intro r data rest hreader hrs htake
    simp only [hreader] at hdec
    rw [refill_aac_eof
      { s with reader := Reader.AacReader r,
               aac_decoder := { s.aac_decoder with decode_script := ds } }
      r data rest hrs htake] at hdec
    constructor
    · simp only [Decoder.next, hdec]
    · simp only [Decoder.next, hdec]
  · intro m hreader hsample
    simp only [hreader] at hdec
    rw [refill_mp4_eof
      { s with reader := Reader.Mp4Reader m,
               aac_decoder := { s.aac_decoder with decode_script := ds } }
      m hsample] at hdec
    constructor
    · simp only [Decoder.next, hdec]
    · simp only [Decoder.next, hdec]

/-- Concrete raw-path state for the C8 witness: the pull reads zero bytes. -/
def c8_state : Decoder :=
  { format := Format.Aac
    reader := Reader.AacReader { read_script := [Except.ok []] }
    aac_decoder :=
      { decode_script := [⟨some DecoderError.NOT_ENOUGH_BITS, [], 0⟩]
        fill_script := []
        frame_size := 0 }
    bytes := []
    current_pcm_index := 0
    current_pcm := []
    track_id := 0
    position := 1
    iter_error := none }

/-- Concrete container reader for the C8 witness: no sample is available. -/
def c8_mp4 : Mp4Reader := { tracks := [], read_sample := fun _ _ => Except.ok none }

/-- Concrete container-path state for the C8 witness. -/
def c8m_state : Decoder :=
  { format := Format.Mp4
    reader := Reader.Mp4Reader c8_mp4
    aac_decoder :=
      { decode_script := [⟨some DecoderError.TRANSPORT_SYNC_ERROR, [], 0⟩]
        fill_script := []
        frame_size := 0 }
    bytes := []
    current_pcm_index := 0
    current_pcm := []
    track_id := 1
    position := 1
    iter_error := none }

/-- C8 (witness): end of stream on both backends at concrete states. -/
theorem C8_eof_no_error_witness :
    ((Decoder.next c8_state).1 = NextResult.done ∧
     (Decoder.next c8_state).2.iter_error = c8_state.iter_error) ∧
    ((Decoder.next c8m_state).1 = NextResult.done ∧
     (Decoder.next c8m_state).2.iter_error = c8m_state.iter_error) :=
  ⟨(C8_eof_no_error c8_state ⟨some DecoderError.NOT_ENOUGH_BITS, [], 0⟩ [] rfl rfl
      (Or.inl rfl)).1 { read_script := [Except.ok []] } [] [] rfl rfl rfl,
   (C8_eof_no_error c8m_state ⟨some DecoderError.TRANSPORT_SYNC_ERROR, [], 0⟩ [] rfl rfl
      (Or.inr rfl)).2 c8_mp4 rfl rfl⟩

/-- Refill on the raw backend continues with the requested-size buffer
appended when the read delivers at least one byte. -/
theorem refill_aac_cont (t : Decoder) (r : AacReader) (data : List Nat)
    (rest : List (Except Nat (List Nat)))
    (hrs : r.read_script = Except.ok data :: rest)
    (hne : data.take (8192 - t.bytes.length) ≠ []) :
    refill_aac t r = RefillResult.cont
      { t with
        reader := Reader.AacReader { read_script := rest }
        bytes := t.bytes ++ (data.take (8192 - t.bytes.length) ++
          List.replicate
            (8192 - t.bytes.length - (data.take (8192 - t.bytes.length)).length) 0) } := by
  have hlen : ¬ (data.take (8192 - t.bytes.length)).length = 0 := by
    intro hh
    exact hne (List.length_eq_zero.mp hh)
  simp only [refill_aac, AacReader.read, hrs]
  rw [if_neg hlen]

/-- Fill and retry when the fill succeeds consuming a prefix and the retried
decode step succeeds. -/
theorem fill_and_retry_success (t : Decoder) (pcm : List Int) (n : Nat)
    (frest : List (Except DecoderError Nat)) (e : FrameEvent) (ds : List FrameEvent)
    (hfill : t.aac_decoder.fill_script = Except.ok n :: frest)
    (hn : n ≤ t.bytes.length)
    (hds : t.aac_decoder.decode_script = e :: ds)
    (he : e.result = none) :
    fill_and_retry t pcm = finish_decode
      { t with
        aac_decoder :=
          { t.aac_decoder with
            decode_script := ds
            fill_script := frest
            frame_size := e.frame_size }
        bytes := t.bytes.drop n }
      (write_into pcm e.pcm) := by
  simp only [fill_and_retry, AacDecoder.fill, hfill]
  rw [if_pos hn]
  simp only [AacDecoder.decode_frame, hds, he]

/-- Writing into the fixed 8192-entry output buffer keeps its length. -/
theorem write_into_replicate_length (p : List Int) :
    (write_into (List.replicate 8192 (0 : Int)) p).length = 8192 := by
  simp only [write_into, List.length_append, List.length_take, List.length_replicate,
    List.length_drop]
  omega

/-- C9: after a refill whose retried decode step succeeds, the pull indexes
the pcm block at cursor 0 without re-checking emptiness; the call is a Rust
panic exactly when the decoder reports decoded frame size 0, and the access
is in bounds exactly when the reported size is at least 1. -/
theorem C9_zero_frame_size (s : Decoder) (r : AacReader) (e1 e2 : FrameEvent)
    (ds : List FrameEvent) (data : List Nat) (rrest : List (Except Nat (List Nat)))
    (n : Nat) (frest : List (Except DecoderError Nat))
    (hcur : s.current_pcm_index = s.current_pcm.length)
    (hreader : s.reader = Reader.AacReader r)
    (hds : s.aac_decoder.decode_script = e1 :: e2 :: ds)
    (he1 : e1.result = some DecoderError.NOT_ENOUGH_BITS ∨
           e1.result = some DecoderError.TRANSPORT_SYNC_ERROR)
    (he2 : e2.result = none)
    (hread : r.read_script = Except.ok data :: rrest)
    (hne : data.take (8192 - s.bytes.length) ≠ [])
    (hfill : s.aac_decoder.fill_script = Except.ok n :: frest)
    (hn : n ≤ 8192) :
    ((decode_next_sample s).1 = StepResult.panic ↔ e2.frame_size = 0) := by
  have hdec := decode_next_sample_recoverable s e1 (e2 :: ds) hcur hds he1
  simp only [hreader] at hdec
  rw [refill_aac_cont
    { s with reader := Reader.AacReader r,
             aac_decoder := { s.aac_decoder with decode_script := e2 :: ds } }
    r data rrest hread hne] at hdec
  dsimp only at hdec
  rw [fill_and_retry_success
    { s with reader := Reader.AacReader { read_script := rrest },
             aac_decoder := { s.aac_decoder with decode_script := e2 :: ds },
             bytes := s.bytes ++ (data.take (8192 - s.bytes.length) ++
               List.replicate
                 (8192 - s.bytes.length - (data.take (8192 - s.bytes.length)).length) 0) }
    (List.replicate 8192 0) n frest e2 ds hfill
    (by
      simp only [List.length_append, List.length_take, List.length_replicate]
      omega)
    rfl he2] at hdec
  rw [finish_decode_eq] at hdec
  rw [write_into_replicate_length e2.pcm] at hdec
  dsimp only at hdec
  rw [hdec]
  by_cases hsz : e2.frame_size = 0
  · simp only [hsz]
    rw [if_pos (by norm_num : (0 : Nat) < 8192), List.take_zero]
    rw [emit_out_of_bounds _ (by simp)]
    simp
  · have hlen2 : (0 : Nat) <
        (if e2.frame_size < 8192 then
          (write_into (List.replicate 8192 0) e2.pcm).take e2.frame_size
        else write_into (List.replicate 8192 0) e2.pcm).length := by
      by_cases hlt : e2.frame_size < 8192
      · rw [if_pos hlt, List.length_take, write_into_replicate_length]
        omega
      · rw [if_neg hlt, write_into_replicate_length]
        omega
    rw [emit_in_bounds _ hlen2]
    exact ⟨fun hh => StepResult.noConfusion hh, fun hh => absurd hh hsz⟩

/-- Concrete raw-path state for the C9 witness: the refilled retry succeeds
and the decoder reports frame size 0, so the pull is a panic. -/
def c9_state : Decoder :=
  { format := Format.Aac
    reader := Reader.AacReader { read_script := [Except.ok [1]] }
    aac_decoder :=
      { decode_script := [⟨some DecoderError.NOT_ENOUGH_BITS, [], 0⟩, ⟨none, [], 0⟩]
        fill_script := [Except.ok 0]
        frame_size := 0 }
    bytes := []
    current_pcm_index := 0
    current_pcm := []
    track_id := 0
    position := 1
    iter_error := none }

/-- C9 (witness): the theorem evaluated at a reported frame size of 0. -/
theorem C9_zero_frame_size_witness :
    ((decode_next_sample c9_state).1 = StepResult.panic ↔ (0 : Nat) = 0) :=
  C9_zero_frame_size c9_state { read_script := [Except.ok [1]] }
    ⟨some DecoderError.NOT_ENOUGH_BITS, [], 0⟩ ⟨none, [], 0⟩ [] [1] [] 0 []
    rfl rfl rfl (Or.inl rfl) rfl rfl (by decide) rfl (by norm_num)

/-- Emission leaves the byte buffer and the reader untouched. -/
theorem emit_preserves (s : Decoder) :
    (emit s).2.bytes = s.bytes ∧ (emit s).2.reader = s.reader := by
  simp only [emit]
  split <;> exact ⟨rfl, rfl⟩

/-- The post-decode block leaves the byte buffer and the reader untouched. -/
theorem finish_decode_preserves (s : Decoder) (pcm : List Int) :
    (finish_decode s pcm).2.bytes = s.bytes ∧ (finish_decode s pcm).2.reader = s.reader :=
  ⟨(emit_preserves _).1, (emit_preserves _).2⟩

/-- Fill and retry only ever shortens the byte buffer and leaves the reader
untouched. -/
theorem fill_and_retry_bound (s : Decoder) (pcm : List Int) :
    (fill_and_retry s pcm).2.bytes.length ≤ s.bytes.length ∧
    (fill_and_retry s pcm).2.reader = s.reader := by
  simp only [fill_and_retry]
  split
  · exact ⟨le_refl _, rfl⟩
  · split
    · split
      · exact ⟨Nat.le_trans (Nat.le_of_eq (congrArg List.length rfl))
          (by simp), rfl⟩
      · constructor
        · exact Nat.le_trans (Nat.le_of_eq (congrArg List.length (finish_decode_preserves _ _).1))
            (by simp)
        · exact (finish_decode_preserves _ _).2
    · exact ⟨le_refl _, rfl⟩

/-- State carried by a refill outcome. -/
def refill_state : RefillResult → Decoder
  | RefillResult.err _ t => t
  | RefillResult.eof t => t
  | RefillResult.cont t => t

/-- A raw refill keeps the byte buffer within the 8192-byte capacity and the
reader on the raw backend. -/
theorem refill_aac_bound (s : Decoder) (r : AacReader) (hb : s.bytes.length ≤ 8192) :
    (refill_state (refill_aac s r)).bytes.length ≤ 8192 ∧
    ∃ r2, (refill_state (refill_aac s r)).reader = Reader.AacReader r2 := by
  rcases hrs : r.read_script with _ | ⟨h1, rest⟩
  · simp only [refill_aac, AacReader.read, hrs]
    rw [if_pos List.length_nil]
    exact ⟨hb, _, rfl⟩
  · cases h1 with
    | error e =>
      simp only [refill_aac, AacReader.read, hrs]
      exact ⟨hb, _, rfl⟩
    | ok dt =>
      simp only [refill_aac, AacReader.read, hrs]
      by_cases h0 : (dt.take (8192 - s.bytes.length)).length = 0
      · rw [if_pos h0]
        exact ⟨hb, _, rfl⟩
      · rw [if_neg h0]
        constructor
        · simp only [refill_state, List.length_append, List.length_take,
            List.length_replicate]
          omega
        · exact ⟨_, rfl⟩

/-- Restatement of the raw refill bound through the refill result, for use
with match equations. -/
theorem refill_aac_bound_state (t : Decoder) (r : AacReader) (res : RefillResult)
    (heq : refill_aac t r = res) (hb : t.bytes.length ≤ 8192) :
    (refill_state res).bytes.length ≤ 8192 ∧
    ∃ r2, (refill_state res).reader = Reader.AacReader r2 := by
  subst heq
  exact refill_aac_bound t r hb

/-- One decode_next_sample call in the raw format keeps the byte buffer
within the 8192-byte capacity and the reader on the raw backend. -/
theorem decode_next_sample_raw_bound (s : Decoder) (r : AacReader)
    (hreader : s.reader = Reader.AacReader r) (hb : s.bytes.length ≤ 8192) :
    (decode_next_sample s).2.bytes.length ≤ 8192 ∧
    ∃ r2, (decode_next_sample s).2.reader = Reader.AacReader r2 := by
  by_cases hcur : s.current_pcm_index = s.current_pcm.length
  · rcases hds : s.aac_decoder.decode_script with _ | ⟨e, ds⟩
    · simp only [decode_next_sample, if_pos hcur, AacDecoder.decode_frame, hds]
      exact ⟨hb, r, hreader⟩
    · rcases hres : e.result with _ | err
      · simp only [decode_next_sample, if_pos hcur, AacDecoder.decode_frame, hds, hres]
        constructor
        · rw [(finish_decode_preserves _ _).1]
          exact hb
        · rw [(finish_decode_preserves _ _).2]
          exact ⟨r, hreader⟩
      · cases err with
        | NOT_ENOUGH_BITS =>
          simp only [decode_next_sample, if_pos hcur, AacDecoder.decode_frame, hds, hres,
            hreader]
          split
          next e2 s2 heq =>
            have hrb := refill_aac_bound_state _ r _ heq hb
            simpa [refill_state] using hrb
          next s2 heq =>
            have hrb := refill_aac_bound_state _ r _ heq hb
            simpa [refill_state] using hrb
          next s2 heq =>
            have hrb := refill_aac_bound_state _ r _ heq hb
            simp only [refill_state] at hrb
            obtain ⟨h1, r2, h2⟩ := hrb
            have hf := fill_and_retry_bound s2 (List.replicate 8192 0)
            exact ⟨le_trans hf.1 h1, r2, hf.2.trans h2⟩
        | TRANSPORT_SYNC_ERROR =>
          simp only [decode_next_sample, if_pos hcur, AacDecoder.decode_frame, hds, hres,
            hreader]
          split
          next e2 s2 heq =>
            have hrb := refill_aac_bound_state _ r _ heq hb
            simpa [refill_state] using hrb
          next s2 heq =>
            have hrb := refill_aac_bound_state _ r _ heq hb
            simpa [refill_state] using hrb
          next s2 heq =>
            have hrb := refill_aac_bound_state _ r _ heq hb
            simp only [refill_state] at hrb
            obtain ⟨h1, r2, h2⟩ := hrb
            have hf := fill_and_retry_bound s2 (List.replicate 8192 0)
            exact ⟨le_trans hf.1 h1, r2, hf.2.trans h2⟩
        | OUT_OF_MEMORY =>
          simp only [decode_next_sample, if_pos hcur, AacDecoder.decode_frame, hds, hres]
          exact ⟨hb, r, hreader⟩
        | UNKNOWN =>
          simp only [decode_next_sample, if_pos hcur, AacDecoder.decode_frame, hds, hres]
          exact ⟨hb, r, hreader⟩
        | INVALID_HANDLE =>
          simp only [decode_next_sample, if_pos hcur, AacDecoder.decode_frame, hds, hres]
          exact ⟨hb, r, hreader⟩
        | UNSUPPORTED_FORMAT =>
          simp only [decode_next_sample, if_pos hcur, AacDecoder.decode_frame, hds, hres]
          exact ⟨hb, r, hreader⟩
        | NEED_TO_RESTART =>
          simp only [decode_next_sample, if_pos hcur, AacDecoder.decode_frame, hds, hres]
          exact ⟨hb, r, hreader⟩
  · simp only [decode_next_sample, if_neg hcur]
    constructor
    · rw [(emit_preserves _).1]
      exact hb
    · rw [(emit_preserves _).2]
      exact ⟨r, hreader⟩

/-- One iterator pull in the raw format preserves the capacity invariant. -/
theorem next_raw_bound (s : Decoder) (r : AacReader)
    (hreader : s.reader = Reader.AacReader r) (hb : s.bytes.length ≤ 8192) :
    (Decoder.next s).2.bytes.length ≤ 8192 ∧
    ∃ r2, (Decoder.next s).2.reader = Reader.AacReader r2 := by
  have hd := decode_next_sample_raw_bound s r hreader hb
  rcases hx : decode_next_sample s with ⟨res, s2⟩
  rw [hx] at hd
  cases res with
  | ok o =>
    cases o <;> simp only [Decoder.next, hx] <;> exact hd
  | error err =>
    simp only [Decoder.next, hx]
    exact hd
  | panic =>
    simp only [Decoder.next, hx]
    exact hd

/-- C10: in the raw format, the byte buffer never exceeds the 8192-byte
capacity in any reachable decoder state — initially empty, and bounded again
after every pull — so the capacity computation 8192 minus the buffered
length never underflows. -/
theorem C10_byte_buffer_bound (r : AacReader) (d : AacDecoder) (n : Nat) :
    (iterate_next n (Decoder.new_aac r d)).bytes.length ≤ 8192 := by
  suffices h : ∀ (k : Nat) (t : Decoder), (∃ r0, t.reader = Reader.AacReader r0) →
      t.bytes.length ≤ 8192 → (iterate_next k t).bytes.length ≤ 8192 ∧
      ∃ r1, (iterate_next k t).reader = Reader.AacReader r1 by
    exact (h n (Decoder.new_aac r d) ⟨r, rfl⟩ (by simp [Decoder.new_aac])).1
  intro k
  induction k with
  | zero =>
    intro t h1 h2
    exact ⟨h2, h1⟩
  | succ k ih =>
    intro t h1 h2
    obtain ⟨r0, hr0⟩ := h1
    have hn := next_raw_bound t r0 hr0 h2
    simp only [iterate_next]
    exact ih (Decoder.next t).2 hn.2 hn.1
